import Mathlib

/-!
Shallow embedding of the lspx proxy (Go) core: the reflection-driven generic
merge, the initialize / completion / diagnostics merge handlers, the fan-out
dispatch, the provider routing table, the per-backend initialization-options
selection, and the framed message codec.

Each definition is translated from the corresponding Go function; comments
name the source file and function.
-/

/-! ### Go value model (for `merge`, src/lspx/util.go)

A Go `any` value as seen by the `reflect` package.  `nilIface` is the untyped
nil interface (`o == nil` in Go); `ptr none` is a typed nil pointer, which is
NOT `== nil` as an interface but whose `reflect.Value.Elem()` is invalid.
-/

inductive GoVal where
  | nilIface
  | ptr (p : Option GoVal)
  | boolean (b : Bool)
  | int (i : Int)
  | str (s : String)
  | slice (xs : List GoVal)
  | gomap (entries : List (GoVal × GoVal))
  | record (fields : List (String × GoVal))

/-- `o == nil` in Go: true only for the untyped nil interface. -/
def GoVal.isNilIface : GoVal → Bool
  | .nilIface => true
  | _ => false

/-- Models `v := reflect.ValueOf(x); for v.Kind() == reflect.Pointer { v = v.Elem() }; v.IsValid()`:
dereference through any chain of pointers; the result is invalid exactly when the
chain ends in a nil pointer (or the interface itself was nil). -/
def derefValid : GoVal → Bool
  | .nilIface => false
  | .ptr none => false
  | .ptr (some v) => derefValid v
  | _ => true

/-- `merge(o, n any) any` from src/lspx/util.go lines 82-170.

The Go code returns `o` when `n == nil`, `n` when `o == nil`, then dereferences
`o`: `if oldVal.IsValid() { return n }`.  Since every non-nil value that is not
a nil-pointer chain dereferences to a valid value, this returns `n` for all
ordinary operands.  Control reaches `newType := newVal.Type()` only when BOTH
operands are nil-pointer chains, and there `newVal` is invalid, so
`newVal.Type()` panics — modelled as `none`.  In particular the whole
`switch newType.Kind()` block (map / slice / struct merging) is unreachable. -/
def merge (o n : GoVal) : Option GoVal :=
  if n.isNilIface then some o
  else if o.isNilIface then some n
  else if derefValid o then some n
  else if derefValid n then some o
  else none

/-! ### Initialize merge (src/lspx/proxy.go, `handleInitialize`, lines 215-235) -/

/-- `protocol.InitializeResult`: server identity plus a capability document.
The capability document is kept as a `GoVal` (a structured record) because the
handler feeds it through the reflective `merge`. -/
structure InitializeResult where
  serverInfo : String
  capabilities : GoVal

/-- One iteration of the fold in `handleInitialize`:
`newCapabilities := merge(&inititalize.Capabilities, &result.Capabilities)`
followed by the type assertion `c, ok := newCapabilities.(*protocol.ServerCapabilities)`
and, when it succeeds, the assignment `inititalize.Capabilities = *c`.
`none` models a runtime panic (merge panicking, or dereferencing a nil pointer). -/
def mergeCapStep (cap rcap : GoVal) : Option GoVal :=
  match merge (.ptr (some cap)) (.ptr (some rcap)) with
  | none => none
  | some v =>
    match v with
    | .ptr (some c) => some c
    | .ptr none => none
    | _ => some cap

/-- `handleInitialize`: seed with `results[0]`, fold the remaining backends'
capabilities through `merge`.  `none` models the panic on an empty result
slice (`results[0]` out of range) or inside the fold. -/
def handleInitialize (results : List InitializeResult) : Option InitializeResult :=
  match results with
  | [] => none
  | r0 :: rest =>
    (rest.foldlM (fun cap r => mergeCapStep cap r.capabilities) r0.capabilities).map
      (fun cap => { serverInfo := r0.serverInfo, capabilities := cap })

/-! ### Completion merge (src/lspx/proxy.go, `handleTextDocumentCompletion`, lines 237-255) -/

/-- `protocol.CompletionList`; items abstracted to their payload. -/
structure CompletionList where
  items : List String
  isIncomplete : Bool
deriving DecidableEq

/-- The merge loop of `handleTextDocumentCompletion`: start from an empty,
complete list; for each backend result, if it is marked incomplete set the
merged incomplete flag and `continue` (its items are NOT appended), otherwise
append its items. -/
def handleTextDocumentCompletion (results : List CompletionList) : CompletionList :=
  results.foldl
    (fun completion result =>
      if result.isIncomplete then { completion with isIncomplete := true }
      else { completion with items := completion.items ++ result.items })
    { items := [], isIncomplete := false }

/-! ### Diagnostics aggregation (src/lspx/proxy.go, `handleTextDocumentPublishDiagnostics`, lines 136-166)

The cache for one document (`s.diagCache[params.URI]`) is a map from backend
name to that backend's most recent diagnostic list; it is modelled as an
association list (Go map iteration order is unspecified; the association-list
order is one admissible order).  Entries for other documents are untouched by
the handler, so only one document's inner map is modelled. -/

/-- `protocol.Diagnostic`, reduced to the fields the handler touches. -/
structure Diagnostic where
  source : String
  message : String
deriving DecidableEq

/-- Per-document diagnostics cache: backend name → latest diagnostics. -/
abbrev DiagCache := List (String × List Diagnostic)

/-- Go map read `cache[k]` (with ok flag). -/
def lookupCache (cache : DiagCache) (k : String) : Option (List Diagnostic) :=
  match cache with
  | [] => none
  | (k', v) :: rest => if k' = k then some v else lookupCache rest k

/-- Go map write `cache[k] = v`: replace the existing entry or add one. -/
def setCacheEntry (cache : DiagCache) (k : String) (v : List Diagnostic) : DiagCache :=
  match cache with
  | [] => [(k, v)]
  | (k', v') :: rest =>
    if k' = k then (k, v) :: rest else (k', v') :: setCacheEntry rest k v

/-- The stamping loop: `if params.Diagnostics[i].Source == "" { ... = sourceTag }`. -/
def stampDiagnostics (sourceTag : String) (ds : List Diagnostic) : List Diagnostic :=
  ds.map fun d => if d.source = "" then { d with source := sourceTag } else d

/-- `handleTextDocumentPublishDiagnostics` for one document: stamp untagged
diagnostics with the publishing backend's name, store the batch under that
backend's key, and forward the concatenation of every backend's stored list.
Returns the updated cache and the merged batch sent to the client. -/
def handleTextDocumentPublishDiagnostics (cache : DiagCache) (sourceTag : String)
    (ds : List Diagnostic) : DiagCache × List Diagnostic :=
  let stamped := stampDiagnostics sourceTag ds
  let cache' := setCacheEntry cache sourceTag stamped
  (cache', (cache'.map (fun e => e.2)).flatten)

/-! ### Concurrent fan-out (src/lspx/proxy.go, `handleProcs`, lines 41-63, and
`ProxyServer.Handle`, lines 83-120)

Each backend call's outcome is modelled as an `Except`: `ok` the decoded
result, `error` the RPC failure.  `errgroup.Wait` waits for all goroutines and
returns the first non-nil error; which failing goroutine finishes first is a
scheduling artifact, determinized here to list order. -/

def handleProcs {T : Type} (calls : List (Except String T)) : Except String (List T) :=
  match calls with
  | [] => .ok []
  | c :: rest =>
    match c with
    | .error e => .error e
    | .ok t =>
      match handleProcs rest with
      | .error e => .error e
      | .ok ts => .ok (t :: ts)

/-- JSON-RPC internal error code used by `ProxyServer.Handle`. -/
def codeInternalError : Int := -32603

/-- A reply on the client connection: a result, or a single error reply. -/
inductive Reply (U : Type) where
  | result (r : U)
  | rpcError (code : Int) (message : String)
deriving DecidableEq

/-- `ProxyServer.Handle`'s request path composed with a fan-out: run the calls,
on any failure reply with one internal error (`conn.ReplyWithError` with
`jsonrpc2.CodeInternalError`), otherwise merge the results and reply. -/
def dispatchAndReply {T U : Type} (calls : List (Except String T))
    (mergeResults : List T → U) : Reply U :=
  match handleProcs calls with
  | .error e => .rpcError codeInternalError e
  | .ok results => .result (mergeResults results)

/-! ### Provider routing (src/lspx/proxy.go, `getProcsByProviders`, lines 168-196) -/

/-- A backend session, reduced to its display name (`ProcessServer.Name`). -/
structure ProcessServer where
  name : String
deriving DecidableEq

/-- The fixed method → provider-key table from `getProcsByProviders`. -/
def providerMap : List (String × String) :=
  [("textDocument/hover", "hover"),
   ("textDocument/completion", "completion"),
   ("textDocument/definition", "definition"),
   ("textDocument/rename", "rename"),
   ("textDocument/references", "references")]

/-- Association-list read, modelling a Go map lookup with ok flag. -/
def lookupAssoc {β : Type} (l : List (String × β)) (k : String) : Option β :=
  match l with
  | [] => none
  | (k', v) :: rest => if k' = k then some v else lookupAssoc rest k

/-- `getProcsByProviders`: map the method through `providerMap`; a miss, a
missing or empty provider entry, or an entry matching no configured backend all
fall back to the full backend list; otherwise keep exactly the backends whose
names appear in the entry. -/
def getProcsByProviders (procs : List ProcessServer)
    (providers : List (String × List String)) (method : String) : List ProcessServer :=
  match lookupAssoc providerMap method with
  | none => procs
  | some m =>
    match lookupAssoc providers m with
    | none => procs
    | some ps =>
      if ps.length = 0 then procs
      else
        let filtered := procs.filter (fun proc => ps.contains proc.name)
        if filtered.length = 0 then procs else filtered

/-! ### Initialization-options selection (src/lspx/process.go, `ProcessServer.handle`, lines 73-124) -/

/-- A JSON document, as produced by unmarshalling into `any`. -/
inductive Json where
  | null
  | boolean (b : Bool)
  | num (n : Int)
  | str (s : String)
  | arr (xs : List Json)
  | obj (members : List (String × Json))

/-- Association lookup in a JSON object (Go map access `options[s.name]`). -/
def lookupJson (members : List (String × Json)) (k : String) : Option Json :=
  match members with
  | [] => none
  | (k', v) :: rest => if k' = k then some v else lookupJson rest k

/-- The initialize branch of `ProcessServer.handle` (process.go:76-95),
restricted to what it does to `InitializationOptions`.  Note where this code
sits in the staged wiring: `ProcessServer.handle` is reached from
`ProcessServer.Handle`, the handler of requests arriving FROM the backend
process (registered at process.go:148), and its rewritten request is sent to
the client-facing connection (`s.proxyConn.Call`, process.go:120) — not to the
backend.  `none` stands for a nil options payload (the Go code then forwards
`req.Params` untouched).  A non-nil payload is re-marshalled and unmarshalled
into `map[string]any`: an object yields its members, JSON `null` leaves the
empty map (so no key matches), and any other shape makes the unmarshal fail,
which aborts the handler with that error.  When the map holds the backend's
name, the options become just that entry's value; otherwise the original
payload is kept unchanged. -/
def processInitOptions (name : String) (opts : Option Json) : Except String (Option Json) :=
  match opts with
  | none => .ok none
  | some o =>
    match o with
    | .obj members =>
      match lookupJson members name with
      | some v => .ok (some v)
      | none => .ok (some (.obj members))
    | .null => .ok (some .null)
    | _ => .error "sonic: unmarshal non-object into map[string]any"

/-! ### Handler wiring (src/lspx/proxy.go lines 74-105 and 257-268,
src/lspx/process.go lines 44-55 and 126-150)

`NewProxyServer` installs the `ProxyServer` as the handler of the client stdio
connection only (proxy.go:263); `NewProcessServer` installs each
`ProcessServer` as the handler of its own backend's pipe connection
(process.go:148).  A backend-originated message therefore always reaches
`ProcessServer.Handle` and never `ProxyServer.Handle`. -/

/-- A connection in the staged wiring: the client stdio connection, or the
pipe connection of backend number `i`. -/
inductive Conn where
  | client
  | backendConn (i : Nat)
deriving DecidableEq

/-- `ProxyServer.getProcIndex` (proxy.go:74-81): scan the backends'
connections for the given one, returning its position, or `-1` when it is not
a backend connection.  The diagnostics-aggregation branch of
`ProxyServer.Handle` (proxy.go:85-91) runs only when this is not `-1`; since
the `ProxyServer` handles the client connection alone, it is only ever
invoked with `Conn.client`. -/
def getProcIndexAux (conns : List Conn) (conn : Conn) (i : Nat) : Int :=
  match conns with
  | [] => -1
  | c :: rest => if c = conn then (i : Int) else getProcIndexAux rest conn (i + 1)

def getProcIndex (conns : List Conn) (conn : Conn) : Int :=
  getProcIndexAux conns conn 0

/-- The notification branch of `ProcessServer.Handle` (process.go:52-55): a
notification arriving from the backend process is forwarded to the client
connection verbatim — `s.proxyConn.Notify(ctx, req.Method, req.Params)` — with
no stamping, caching, or merging on this path. -/
def processServerNotifyClient (method : String) (ds : List Diagnostic) :
    String × List Diagnostic :=
  (method, ds)

/-- The request sent to each backend by the fan-out loop of `handleProcs`
(proxy.go:45-57): every iteration invokes
`newProc.Call(ctx, req.Method, req.Params, &result)`, and `ProcessServer.Call`
(process.go:44-46) passes method and params through to the backend connection
unchanged — so every backend receives the client's method and raw params. -/
def handleProcsRequests (method : String) (params : Option Json)
    (procs : List ProcessServer) : List (String × Option Json) :=
  procs.map (fun _ => (method, params))

/-! ### Framed codec (src/lspx/util.go, `VSCodeObjectCodec`, lines 35-80)

The stream is a list of characters (bytes).  The payload is represented by its
serialized bytes: `WriteObject` marshals the object and frames the bytes;
`ReadObject` parses the frame and hands the body bytes to the JSON decoder.
JSON (de)serialization itself is outside the codec and is not modelled; the
round-trip property is stated on the framed bytes. -/

/-- Decimal digit to character (`'0' + d`), as produced by `fmt.Fprintf("%d", ...)`. -/
def digitChar (d : Nat) : Char := Char.ofNat (48 + d)

/-- Decimal rendering of a natural number (`%d`). -/
def natToChars (n : Nat) : List Char :=
  if _h : n < 10 then [digitChar n]
  else natToChars (n / 10) ++ [digitChar (n % 10)]
termination_by n
decreasing_by exact Nat.div_lt_self (by omega) (by omega)

/-- A decimal digit character, as accepted by `strconv.ParseUint(s, 10, 32)`:
`'0' <= c && c <= '9'`, with value `c - '0'`. -/
def charToDigit (c : Char) : Option Nat :=
  if '0' ≤ c ∧ c ≤ '9' then some (c.toNat - 48) else none

def parseDigitsAux : List Char → Nat → Option Nat
  | [], acc => some acc
  | c :: rest, acc =>
    match charToDigit c with
    | none => none
    | some d => parseDigitsAux rest (10 * acc + d)

/-- Digit-string parse: `strconv.ParseUint` rejects the empty string, any
non-digit character (base 10, no sign permitted for unsigned parsing). -/
def parseDigits (l : List Char) : Option Nat :=
  if l = [] then none else parseDigitsAux l 0

/-- `strconv.ParseUint(s, 10, 32)`: additionally rejects values that do not
fit in 32 bits (range error). -/
def parseUint32 (l : List Char) : Option Nat :=
  match parseDigits l with
  | none => none
  | some v => if v < 2 ^ 32 then some v else none

/-- ASCII portion of `unicode.IsSpace`, used by `strings.TrimSpace`. -/
def isSpaceChar (c : Char) : Bool :=
  c = ' ' || c = '\t' || c = '\n' || c = '\x0b' || c = '\x0c' || c = '\r'

/-- `strings.TrimSpace`: drop leading and trailing whitespace. -/
def trimSpace (l : List Char) : List Char :=
  ((l.dropWhile isSpaceChar).reverse.dropWhile isSpaceChar).reverse

/-- The bytes of the `"Content-Length: "` header name. -/
def clHeader : List Char := "Content-Length: ".toList

def eofErr : String := "EOF"
def lineEndErr : String := "jsonrpc2: line endings must be \\r\\n"
def noCLErr : String := "jsonrpc2: no Content-Length header found"
def parseErr : String := "strconv.ParseUint: invalid syntax or range"

/-- The header loop of `ReadObject` (lines 51-75), with
`stream.ReadString('\r')` fused into the character scan: `lineAcc` accumulates
the current line's characters before its terminating `'\r'` (so
`lineAcc ++ ['\r']` is exactly what `ReadString('\r')` returns).  Reaching the
end of input while scanning is the reader's EOF error; after each `'\r'` the
next byte must be `'\n'` or the line-endings framing error is returned; the
line `"\r"` (empty header line) ends the block; a `Content-Length` header is
parsed (parse failure aborts) and the latest value is kept.  Returns the
declared content length and the unread remainder of the stream. -/
def readLoop (stream lineAcc : List Char) (contentLength : Nat) :
    Except String (Nat × List Char) :=
  match stream with
  | [] => .error eofErr
  | c :: rest =>
    if c = '\r' then
      match rest with
      | [] => .error eofErr
      | b :: rest' =>
        if b = '\n' then
          let line := lineAcc ++ ['\r']
          if line = ['\r'] then .ok (contentLength, rest')
          else if line.take clHeader.length = clHeader then
            match parseUint32 (trimSpace (line.drop clHeader.length)) with
            | none => .error parseErr
            | some n => readLoop rest' [] n
          else readLoop rest' [] contentLength
        else .error lineEndErr
    else readLoop rest (lineAcc ++ [c]) contentLength

/-- `ReadObject` (lines 49-80): run the header loop from a zero content
length; afterwards a zero content length is the missing-header error;
otherwise the decoder consumes at most `contentLength` bytes of the remainder
(`io.LimitReader`), i.e. the body is the first `contentLength` bytes. -/
def readObject (stream : List Char) : Except String (List Char) :=
  match readLoop stream [] 0 with
  | .error e => .error e
  | .ok (contentLength, rest) =>
    if contentLength = 0 then .error noCLErr
    else .ok (rest.take contentLength)

/-- `WriteObject` (lines 35-47): `"Content-Length: %d\r\n\r\n"` followed by
the serialized payload bytes. -/
def writeObject (data : List Char) : List Char :=
  clHeader ++ natToChars data.length ++ ['\r', '\n', '\r', '\n'] ++ data

/-! ### Helper lemmas -/

theorem isNilIface_eq_false {v : GoVal} (h : v ≠ .nilIface) : v.isNilIface = false := by
  cases v <;> simp [GoVal.isNilIface] at h ⊢

/-! ### Claim C10 -/

/-- Claim C10: for non-nil arguments `o` and `n` where `o` dereferences
(through any chain of pointers) to a valid value, `merge(o, n)` returns `n`
itself unchanged, whatever the operands' shapes — the result never combines
content from both arguments. -/
theorem merge_returns_new_of_old_valid (o n : GoVal)
    (hn : n ≠ .nilIface) (ho : o ≠ .nilIface) (hv : derefValid o = true) :
    merge o n = some n := by
  unfold merge
  rw [isNilIface_eq_false hn, isNilIface_eq_false ho, hv]
  simp

/-- Witness for C10: a record merged over a slice returns the slice unchanged. -/
theorem merge_returns_new_of_old_valid_witness :
    (GoVal.slice [.int 9] ≠ .nilIface)
    ∧ (GoVal.record [("A", .boolean true)] ≠ .nilIface)
    ∧ derefValid (GoVal.record [("A", .boolean true)]) = true
    ∧ merge (.record [("A", .boolean true)]) (.slice [.int 9]) = some (.slice [.int 9]) := by
  refine ⟨by simp, by simp, rfl, ?_⟩
  exact merge_returns_new_of_old_valid _ _ (by simp) (by simp) rfl

/-! ### Claim C3 (code bug) -/

/-- Claim C3, evaluated at the failing input: on the sequences `[1, 2]` and
`[2, 3]`, `merge` returns its second argument `[2, 3]` outright — the element
`1` of the first sequence is dropped, instead of the documented append-merge
result `[1, 2, 3]`.  The guard `if oldVal.IsValid() { return n }` fires for
every ordinary first operand, so the slice-union branch of the switch is
unreachable. -/
theorem merge_slice_failing_input :
    merge (.slice [.int 1, .int 2]) (.slice [.int 2, .int 3])
      = some (.slice [.int 2, .int 3])
    ∧ GoVal.slice [.int 2, .int 3] ≠ .slice [.int 1, .int 2, .int 3] := by
  refine ⟨rfl, by simp⟩

/-! ### Claim C2 (code bug) -/

/-- Claim C2, evaluated at the failing input: with backend 1 declaring hover,
backend 2 declaring completion and backend 3 declaring neither, the merged
initialize result keeps backend 1's server identity (as claimed) but its
capability document is backend 3's empty one — `merge` returns its second
argument whenever the accumulated capabilities are a valid value, so each fold
step replaces the accumulator and the last backend wins, not the union. -/
theorem handleInitialize_failing_input :
    handleInitialize
      [{ serverInfo := "backend1", capabilities := .record [("HoverProvider", .boolean true)] },
       { serverInfo := "backend2", capabilities := .record [("CompletionProvider", .boolean true)] },
       { serverInfo := "backend3", capabilities := .record [] }]
      = some { serverInfo := "backend1", capabilities := .record [] }
    ∧ GoVal.record []
        ≠ .record [("HoverProvider", .boolean true), ("CompletionProvider", .boolean true)] := by
  refine ⟨rfl, by simp⟩

/-! ### Claim C1 (corrected) -/

/-- Counterexample to claim C1 as stated: backend A returns `[x, y]` complete
and backend B returns `[z]` marked incomplete; the merged items are `[x, y]`,
not the claimed `[x, y, z]` — the incomplete backend's items are skipped by
the `continue` — while the incomplete flag is true as claimed. -/
theorem handleCompletion_counterexample :
    handleTextDocumentCompletion
      [{ items := ["x", "y"], isIncomplete := false },
       { items := ["z"], isIncomplete := true }]
      = { items := ["x", "y"], isIncomplete := true }
    ∧ (["x", "y"] : List String) ≠ ["x", "y", "z"] :=
  ⟨rfl, by decide⟩

theorem handleCompletion_foldl (results : List CompletionList) (acc : CompletionList) :
    results.foldl
      (fun completion result =>
        if result.isIncomplete then { completion with isIncomplete := true }
        else { completion with items := completion.items ++ result.items }) acc
    = { items := acc.items
          ++ ((results.filter fun r => !r.isIncomplete).map (fun r => r.items)).flatten,
        isIncomplete := acc.isIncomplete || results.any fun r => r.isIncomplete } := by
  induction results generalizing acc with
  | nil => simp
  | cons r rs ih =>
    by_cases hr : r.isIncomplete = true <;>
      simp [List.foldl_cons, hr, ih, List.append_assoc]

/-- Claim C1 amended: the merged completion items are the concatenation, in
backend order, of the items of exactly those backends whose result is complete
(a backend marked incomplete contributes no items), and the merged incomplete
flag is true if and only if at least one contributing backend marked its own
result incomplete. -/
theorem handleCompletion_amended (results : List CompletionList) :
    handleTextDocumentCompletion results
      = { items := ((results.filter fun r => !r.isIncomplete).map (fun r => r.items)).flatten,
          isIncomplete := results.any fun r => r.isIncomplete } := by
  unfold handleTextDocumentCompletion
  rw [handleCompletion_foldl]
  simp

/-! ### Properties of the initialization-options selection, in isolation -/

/-- Behaviour of the options selection of `ProcessServer.handle`, taken in
isolation: for a mapping payload the result is exactly the entry under the
backend's name when one exists, and the original payload unchanged when no
matching key exists; a nil payload likewise passes through.  In the staged
wiring this code runs only for backend-originated requests and its output
goes to the client connection, so it never shapes what a backend receives. -/
theorem processInitOptions_selection (name : String) (members : List (String × Json)) :
    (∀ v, lookupJson members name = some v →
        processInitOptions name (some (.obj members)) = .ok (some v))
    ∧ (lookupJson members name = none →
        processInitOptions name (some (.obj members)) = .ok (some (.obj members)))
    ∧ processInitOptions name none = .ok none := by
  refine ⟨fun v hv => ?_, fun hn => ?_, rfl⟩
  · simp [processInitOptions, hv]
  · simp [processInitOptions, hn]

/-- Instance of the isolated selection: name `gopls` picks its own entry out
of a two-entry options mapping; name `pylsp` (no entry) keeps the mapping. -/
theorem processInitOptions_selection_witness :
    lookupJson [("gopls", Json.boolean true), ("ts", Json.num 1)] "gopls"
      = some (Json.boolean true)
    ∧ processInitOptions "gopls" (some (.obj [("gopls", .boolean true), ("ts", .num 1)]))
      = .ok (some (.boolean true))
    ∧ lookupJson [("gopls", Json.boolean true), ("ts", Json.num 1)] "pylsp" = none
    ∧ processInitOptions "pylsp" (some (.obj [("gopls", .boolean true), ("ts", .num 1)]))
      = .ok (some (.obj [("gopls", .boolean true), ("ts", .num 1)])) := by
  have h1 : lookupJson [("gopls", Json.boolean true), ("ts", Json.num 1)] "gopls"
      = some (Json.boolean true) := rfl
  have h2 : lookupJson [("gopls", Json.boolean true), ("ts", Json.num 1)] "pylsp" = none := rfl
  exact ⟨h1, (processInitOptions_selection "gopls" _).1 _ h1,
    h2, (processInitOptions_selection "pylsp" _).2.1 h2⟩

/-! ### Claim C5 -/

/-- Claim C5: if any backend call in a fan-out returns an error, the fan-out
returns an error of one of the failing calls, the client receives a single
internal-error reply carrying it, and no result reply (hence no partial result
built from the other backends' answers) is produced. -/
theorem fanout_fail_fast {T U : Type} (calls : List (Except String T))
    (mergeResults : List T → U) (e0 : String) (h : Except.error e0 ∈ calls) :
    ∃ e, Except.error e ∈ calls
      ∧ handleProcs calls = Except.error e
      ∧ dispatchAndReply calls mergeResults = Reply.rpcError codeInternalError e
      ∧ ∀ u, dispatchAndReply calls mergeResults ≠ Reply.result u := by
  induction calls with
  | nil => cases h
  | cons c rest ih =>
    cases c with
    | error e =>
      refine ⟨e, List.mem_cons_self .., by simp [handleProcs], ?_, ?_⟩
      · simp [dispatchAndReply, handleProcs]
      · intro u hu
        simp [dispatchAndReply, handleProcs] at hu
    | ok t =>
      have h' : Except.error e0 ∈ rest := by
        rcases List.mem_cons.1 h with h0 | h0
        · cases h0
        · exact h0
      obtain ⟨e, he, hp, _, _⟩ := ih h'
      refine ⟨e, List.mem_cons_of_mem _ he, ?_, ?_, ?_⟩
      · simp [handleProcs, hp]
      · simp [dispatchAndReply, handleProcs, hp]
      · intro u hu
        simp [dispatchAndReply, handleProcs, hp] at hu

/-- Witness for C5: of three dispatched calls the middle one fails; the client
gets one internal-error reply with that error. -/
theorem fanout_fail_fast_witness :
    Except.error "boom" ∈ [Except.ok 1, Except.error "boom", Except.ok 2]
    ∧ ∃ e, Except.error e ∈ [Except.ok 1, Except.error "boom", Except.ok 2]
      ∧ handleProcs [Except.ok 1, Except.error "boom", Except.ok 2] = Except.error e
      ∧ dispatchAndReply [Except.ok 1, Except.error "boom", Except.ok 2] List.length
          = Reply.rpcError codeInternalError e
      ∧ ∀ u, dispatchAndReply [Except.ok 1, Except.error "boom", Except.ok 2] List.length
          ≠ Reply.result u :=
  ⟨by simp, fanout_fail_fast _ List.length "boom" (by simp)⟩

/-! ### Claim C6 -/

/-- Claim C6: if the request method is absent from the provider table, or its
provider entry is empty, or no configured backend's name appears in the entry,
the routed backend set is the full configured set; otherwise it is exactly the
configured backends whose names appear in the entry, in configuration order. -/
theorem getProcsByProviders_routing (procs : List ProcessServer)
    (providers : List (String × List String)) (method : String) :
    (((lookupAssoc providerMap method).bind (fun m => lookupAssoc providers m) = none
        ∨ ∃ ps, (lookupAssoc providerMap method).bind (fun m => lookupAssoc providers m)
              = some ps
            ∧ (ps = [] ∨ procs.filter (fun p => ps.contains p.name) = [])) →
      getProcsByProviders procs providers method = procs)
    ∧ (∀ ps, (lookupAssoc providerMap method).bind (fun m => lookupAssoc providers m)
          = some ps →
        ps ≠ [] → procs.filter (fun p => ps.contains p.name) ≠ [] →
        getProcsByProviders procs providers method
          = procs.filter (fun p => ps.contains p.name)) := by
  cases h1 : lookupAssoc providerMap method with
  | none =>
    refine ⟨fun _ => ?_, fun ps hps => ?_⟩
    · simp [getProcsByProviders, h1]
    · simp at hps
  | some m =>
    cases h2 : lookupAssoc providers m with
    | none =>
      refine ⟨fun _ => ?_, fun ps hps => ?_⟩
      · simp [getProcsByProviders, h1, h2]
      · simp [h2] at hps
    | some ps0 =>
      have heq : getProcsByProviders procs providers method
          = if ps0.length = 0 then procs
            else if (procs.filter fun p => ps0.contains p.name).length = 0 then procs
            else procs.filter fun p => ps0.contains p.name := by
        simp only [getProcsByProviders, h1, h2]
      constructor
      · rintro (habs | ⟨ps, hps, hcase⟩)
        · simp [h2] at habs
        · simp [h2] at hps
          subst hps
          rcases hcase with hempty | hflt
          · rw [heq, if_pos (by simp [hempty])]
          · by_cases hlen : ps0.length = 0
            · rw [heq, if_pos hlen]
            · rw [heq, if_neg hlen, if_pos (by rw [hflt]; rfl)]
      · intro ps hps hne hflt
        simp [h2] at hps
        subst hps
        have hlen : ¬ ps0.length = 0 := by
          simpa [List.length_eq_zero] using hne
        have hflen : ¬ (procs.filter fun p => ps0.contains p.name).length = 0 := by
          simpa [List.length_eq_zero] using hflt
        rw [heq, if_neg hlen, if_neg hflen]

/-- Witness for C6: `textDocument/hover` routed through a provider entry
naming only backend `b`; the routed set is exactly that backend. -/
theorem getProcsByProviders_routing_witness :
    ((lookupAssoc providerMap "textDocument/hover").bind
        (fun m => lookupAssoc [("hover", ["b"])] m) = some ["b"])
    ∧ (["b"] : List String) ≠ []
    ∧ [ProcessServer.mk "a", ProcessServer.mk "b"].filter
        (fun p => (["b"] : List String).contains p.name) ≠ []
    ∧ getProcsByProviders [ProcessServer.mk "a", ProcessServer.mk "b"]
        [("hover", ["b"])] "textDocument/hover"
      = [ProcessServer.mk "a", ProcessServer.mk "b"].filter
          (fun p => (["b"] : List String).contains p.name) := by
  refine ⟨rfl, by simp, by simp [ProcessServer.name], ?_⟩
  exact (getProcsByProviders_routing _ _ _).2 ["b"] rfl (by simp)
    (by simp [ProcessServer.name])

/-! ### Properties of the diagnostics aggregation handler, in isolation -/

theorem lookupCache_setCacheEntry_self (cache : DiagCache) (k : String)
    (v : List Diagnostic) : lookupCache (setCacheEntry cache k v) k = some v := by
  induction cache with
  | nil => simp [setCacheEntry, lookupCache]
  | cons e rest ih =>
    obtain ⟨k', v'⟩ := e
    by_cases hk : k' = k <;> simp [setCacheEntry, lookupCache, hk, ih]

theorem lookupCache_setCacheEntry_other (cache : DiagCache) (k k2 : String)
    (v : List Diagnostic) (hne : k2 ≠ k) :
    lookupCache (setCacheEntry cache k v) k2 = lookupCache cache k2 := by
  have hne' : k ≠ k2 := hne.symm
  induction cache with
  | nil => simp [setCacheEntry, lookupCache, hne']
  | cons e rest ih =>
    obtain ⟨k', v'⟩ := e
    by_cases hk : k' = k
    · simp [setCacheEntry, lookupCache, hk, hne']
    · by_cases hk2 : k' = k2 <;> simp [setCacheEntry, lookupCache, hk, hk2, hne, ih]

theorem mem_flatten_of_lookupCache (cache : DiagCache) (k : String)
    (v : List Diagnostic) (hv : lookupCache cache k = some v) (d : Diagnostic)
    (hd : d ∈ v) : d ∈ (cache.map (fun e => e.2)).flatten := by
  induction cache with
  | nil => simp [lookupCache] at hv
  | cons e rest ih =>
    obtain ⟨k', v'⟩ := e
    by_cases hk : k' = k
    · simp [lookupCache, hk] at hv
      subst hv
      simp [hd]
    · simp [lookupCache, hk] at hv
      simp [ih hv]

/-- Behaviour of `handleTextDocumentPublishDiagnostics`, taken in isolation:
it stamps each diagnostic lacking a source with the given backend's name,
replaces exactly that backend's cache entry for the document (others
unchanged), returns the concatenation of every backend's currently stored
list, and a later run for a different backend keeps every stamped diagnostic
of this backend in the next merged batch.  In the staged wiring this handler
is unreachable: its caller sits behind the backend-connection check of
`ProxyServer.Handle`, which only ever receives the client connection. -/
theorem publishDiagnostics_aggregation (cache : DiagCache) (tag : String)
    (ds : List Diagnostic) :
    (∀ i : Nat, (stampDiagnostics tag ds)[i]? =
        (ds[i]?).map fun d => if d.source = "" then { d with source := tag } else d)
    ∧ lookupCache (handleTextDocumentPublishDiagnostics cache tag ds).1 tag
        = some (stampDiagnostics tag ds)
    ∧ (∀ k, k ≠ tag → lookupCache (handleTextDocumentPublishDiagnostics cache tag ds).1 k
        = lookupCache cache k)
    ∧ (handleTextDocumentPublishDiagnostics cache tag ds).2
        = (((handleTextDocumentPublishDiagnostics cache tag ds).1).map (fun e => e.2)).flatten
    ∧ (∀ tag2 ds2, tag2 ≠ tag → ∀ d ∈ stampDiagnostics tag ds,
        d ∈ (handleTextDocumentPublishDiagnostics
              (handleTextDocumentPublishDiagnostics cache tag ds).1 tag2 ds2).2) := by
  refine ⟨?_, ?_, ?_, rfl, ?_⟩
  · intro i
    simp [stampDiagnostics]
  · exact lookupCache_setCacheEntry_self ..
  · intro k hk
    exact lookupCache_setCacheEntry_other _ _ _ _ hk
  · intro tag2 ds2 hne d hd
    have hkeep : lookupCache
        (setCacheEntry (handleTextDocumentPublishDiagnostics cache tag ds).1 tag2
          (stampDiagnostics tag2 ds2)) tag = some (stampDiagnostics tag ds) := by
      rw [lookupCache_setCacheEntry_other _ _ _ _ (fun h => hne h.symm)]
      exact lookupCache_setCacheEntry_self ..
    exact mem_flatten_of_lookupCache _ _ _ hkeep d hd

/-- Instance of the isolated handler: after runs for backend `a` (untagged
diagnostic) and then backend `b`, `a`'s stamped diagnostic survives in the
merged batch the handler computes. -/
theorem publishDiagnostics_aggregation_witness :
    ("b" : String) ≠ "a"
    ∧ Diagnostic.mk "a" "oops" ∈ stampDiagnostics "a" [Diagnostic.mk "" "oops"]
    ∧ Diagnostic.mk "a" "oops" ∈ (handleTextDocumentPublishDiagnostics
        (handleTextDocumentPublishDiagnostics [] "a" [Diagnostic.mk "" "oops"]).1
        "b" [Diagnostic.mk "b" "warn"]).2 := by
  refine ⟨by decide, by simp [stampDiagnostics], ?_⟩
  exact (publishDiagnostics_aggregation [] "a" [Diagnostic.mk "" "oops"]).2.2.2.2
    "b" [Diagnostic.mk "b" "warn"] (by decide) _ (by simp [stampDiagnostics])

/-! ### Codec helper lemmas -/

theorem digitChar_spec (d : Nat) (h : d < 10) :
    charToDigit (digitChar d) = some d
    ∧ isSpaceChar (digitChar d) = false
    ∧ digitChar d ≠ '\r' := by
  interval_cases d <;> exact ⟨by decide, by decide, by decide⟩

theorem natToChars_digits (n : Nat) :
    ∀ c ∈ natToChars n, ∃ d, d < 10 ∧ c = digitChar d := by
  induction n using Nat.strong_induction_on with
  | _ n ih =>
    intro c hc
    rw [natToChars] at hc
    split at hc
    · next h =>
      simp at hc
      exact ⟨n, h, hc⟩
    · next h =>
      rcases List.mem_append.1 hc with hmem | hmem
      · exact ih (n / 10) (Nat.div_lt_self (by omega) (by omega)) c hmem
      · simp at hmem
        exact ⟨n % 10, Nat.mod_lt _ (by omega), hmem⟩

theorem natToChars_ne_nil (n : Nat) : natToChars n ≠ [] := by
  rw [natToChars]
  split <;> simp

theorem dropWhile_eq_self_of_no_space (l : List Char)
    (h : ∀ c ∈ l, isSpaceChar c = false) : l.dropWhile isSpaceChar = l := by
  cases l with
  | nil => rfl
  | cons c rest => simp [List.dropWhile_cons, h c (List.mem_cons_self ..)]

theorem trimSpace_digits (n : Nat) : trimSpace (natToChars n ++ ['\r']) = natToChars n := by
  have hall : ∀ c ∈ natToChars n, isSpaceChar c = false := by
    intro c hc
    obtain ⟨d, hd, rfl⟩ := natToChars_digits n c hc
    exact (digitChar_spec d hd).2.1
  obtain ⟨a, A, hA⟩ : ∃ a A, natToChars n = a :: A := by
    cases h : natToChars n with
    | nil => exact absurd h (natToChars_ne_nil n)
    | cons a A => exact ⟨a, A, rfl⟩
  unfold trimSpace
  rw [hA]
  rw [List.cons_append, List.dropWhile_cons,
    if_neg (by simp [hall a (by simp [hA])])]
  rw [show ((a :: (A ++ ['\r'])).reverse) = '\r' :: (a :: A).reverse by simp]
  rw [List.dropWhile_cons, if_pos (by decide),
    dropWhile_eq_self_of_no_space _ (by
      intro c hc
      exact hall c (by rw [hA]; exact List.mem_reverse.1 hc))]
  simp

theorem parseDigitsAux_append (l1 l2 : List Char) (acc : Nat) :
    parseDigitsAux (l1 ++ l2) acc =
      match parseDigitsAux l1 acc with
      | none => none
      | some a => parseDigitsAux l2 a := by
  induction l1 generalizing acc with
  | nil => simp [parseDigitsAux]
  | cons c rest ih =>
    cases hc : charToDigit c with
    | none => simp [parseDigitsAux, hc]
    | some d => simp [parseDigitsAux, hc, ih]

theorem parseDigitsAux_natToChars (n : Nat) :
    ∀ acc, parseDigitsAux (natToChars n) acc
      = some (acc * 10 ^ (natToChars n).length + n) := by
  induction n using Nat.strong_induction_on with
  | _ n ih =>
    intro acc
    rw [natToChars]
    split
    · next h =>
      simp [parseDigitsAux, (digitChar_spec n h).1]
      omega
    · next h =>
      rw [parseDigitsAux_append]
      rw [ih (n / 10) (Nat.div_lt_self (by omega) (by omega)) acc]
      simp only [parseDigitsAux, (digitChar_spec (n % 10) (Nat.mod_lt _ (by omega))).1,
        List.length_append, List.length_cons, List.length_nil]
      rw [pow_succ, ← mul_assoc]
      congr 1
      generalize acc * 10 ^ (natToChars (n / 10)).length = y
      omega

theorem parseDigits_natToChars (n : Nat) : parseDigits (natToChars n) = some n := by
  unfold parseDigits
  rw [if_neg (natToChars_ne_nil n), parseDigitsAux_natToChars n 0]
  simp

/-! ### Codec loop lemmas -/

theorem readLoop_crlf_empty (s : List Char) (cl : Nat) :
    readLoop ('\r' :: '\n' :: s) [] cl = .ok (cl, s) := rfl

theorem readLoop_no_cr (pre : List Char) (hpre : '\r' ∉ pre) :
    ∀ s acc cl, readLoop (pre ++ s) acc cl = readLoop s (acc ++ pre) cl := by
  induction pre with
  | nil => simp
  | cons c p ih =>
    intro s acc cl
    have hc : ¬ c = '\r' := fun h => hpre (h ▸ List.mem_cons_self ..)
    rw [List.cons_append, readLoop.eq_def]
    simp only [hc, if_false]
    rw [ih (fun h => hpre (List.mem_cons_of_mem _ h)) s (acc ++ [c]) cl]
    simp

theorem readLoop_cl_step (digits : List Char) (s : List Char) (cl : Nat) :
    readLoop ('\r' :: '\n' :: s) (clHeader ++ digits) cl =
      match parseUint32 (trimSpace (digits ++ ['\r'])) with
      | none => .error parseErr
      | some n => readLoop s [] n := by
  rw [readLoop]
  have hline : ¬ ((clHeader ++ digits) ++ ['\r'] = ['\r']) := by
    intro h
    have := congrArg List.length h
    simp [clHeader] at this
  have htake : ((clHeader ++ digits) ++ ['\r']).take clHeader.length = clHeader := by
    rw [List.append_assoc]
    exact List.take_left ..
  have hdrop : ((clHeader ++ digits) ++ ['\r']).drop clHeader.length = digits ++ ['\r'] := by
    rw [List.append_assoc]
    exact List.drop_left ..
  simp only [if_pos rfl, if_neg hline, htake, hdrop, if_pos rfl]
  simp

theorem no_cr_in_header (L : Nat) : '\r' ∉ clHeader ++ natToChars L := by
  intro hmem
  rcases List.mem_append.1 hmem with hm | hm
  · revert hm
    decide
  · obtain ⟨d, hd, hc⟩ := natToChars_digits _ _ hm
    exact (digitChar_spec d hd).2.2 hc.symm

theorem readLoop_no_cr_error (s : List Char) (h : '\r' ∉ s) :
    ∀ acc cl, readLoop s acc cl = .error eofErr := by
  induction s with
  | nil => intro acc cl; rfl
  | cons c rest ih =>
    intro acc cl
    have hc : ¬ c = '\r' := fun hh => h (hh ▸ List.mem_cons_self ..)
    rw [readLoop.eq_def]
    simp only [hc, if_false]
    exact ih (fun hh => h (List.mem_cons_of_mem _ hh)) _ _

theorem readObject_writeObject_too_long (data : List Char)
    (hge : 2 ^ 32 ≤ data.length) :
    readObject (writeObject data) = .error parseErr := by
  have hge' : 4294967296 ≤ data.length := by
    have h := hge
    norm_num at h
    exact h
  have hparse : parseUint32 (trimSpace (natToChars data.length ++ ['\r'])) = none := by
    rw [trimSpace_digits]
    unfold parseUint32
    rw [parseDigits_natToChars]
    simp
    omega
  unfold writeObject readObject
  rw [show clHeader ++ natToChars data.length ++ ['\r', '\n', '\r', '\n'] ++ data
      = (clHeader ++ natToChars data.length) ++ ('\r' :: '\n' :: ('\r' :: '\n' :: data)) by
    simp]
  rw [readLoop_no_cr _ (no_cr_in_header _), List.nil_append, readLoop_cl_step, hparse]

/-! ### Claim C7 (corrected) -/

/-- Counterexample to claim C7 as stated for every payload: a payload whose
serialized body is `2^32` bytes encodes fine, but decoding fails — the
`Content-Length` value no longer fits the decoder's 32-bit unsigned parse —
so decode∘encode is not the identity on this payload. -/
theorem writeObject_readObject_overflow :
    readObject (writeObject (List.replicate (2 ^ 32) 'a')) = .error parseErr
    ∧ (Except.error parseErr : Except String (List Char))
        ≠ .ok (List.replicate (2 ^ 32) 'a') := by
  constructor
  · refine readObject_writeObject_too_long _ ?_
    rw [List.length_replicate]
  · intro h
    exact Except.noConfusion h

/-- Claim C7 amended: for every payload whose serialized body is nonempty
(every JSON serialization is) and shorter than `2^32` bytes, encoding with the
framed codec and then decoding the produced byte sequence yields the original
payload bytes. -/
theorem writeObject_readObject_roundtrip (data : List Char)
    (hne : data ≠ []) (hlt : data.length < 2 ^ 32) :
    readObject (writeObject data) = .ok data := by
  have hparse : parseUint32 (trimSpace (natToChars data.length ++ ['\r']))
      = some data.length := by
    rw [trimSpace_digits]
    unfold parseUint32
    rw [parseDigits_natToChars]
    simp
    exact hlt
  unfold writeObject readObject
  rw [show clHeader ++ natToChars data.length ++ ['\r', '\n', '\r', '\n'] ++ data
      = (clHeader ++ natToChars data.length) ++ ('\r' :: '\n' :: ('\r' :: '\n' :: data)) by
    simp]
  rw [readLoop_no_cr _ (no_cr_in_header _), List.nil_append, readLoop_cl_step, hparse]
  have hL : ¬ data.length = 0 := by simpa [List.length_eq_zero] using hne
  simp [readLoop_crlf_empty, hL]

/-- Witness for C7: the two-byte body `hi` round-trips through the codec. -/
theorem writeObject_readObject_roundtrip_witness :
    ("hi".toList : List Char) ≠ [] ∧ ("hi".toList : List Char).length < 2 ^ 32
    ∧ readObject (writeObject "hi".toList) = .ok "hi".toList :=
  ⟨by decide, by decide, writeObject_readObject_roundtrip _ (by decide) (by decide)⟩

/-! ### Claim C8 (corrected) -/

/-- Counterexample to claim C8 as stated: this stream's header block is
framed with bare line-feeds (`Content-Length: 5` then a blank line, both
LF-terminated), yet decoding succeeds and returns a body — the reader scans to
the next carriage return, so LF-terminated header lines are absorbed into the
following CR/LF-terminated line instead of raising a framing error. -/
theorem readObject_lf_counterexample :
    readObject ("Content-Length: 5\n\n\r\n\r\nhello".toList) = .ok ("hello".toList)
    ∧ ∀ e, readObject ("Content-Length: 5\n\n\r\n\r\nhello".toList) ≠ .error e := by
  refine ⟨rfl, fun e h => ?_⟩
  rw [show readObject ("Content-Length: 5\n\n\r\n\r\nhello".toList)
      = .ok ("hello".toList) from rfl] at h
  exact Except.noConfusion h

/-- Claim C8 amended: the decoder only checks the byte after each carriage
return.  A stream containing no carriage return at all — in particular a
header block whose every line terminator is a bare line-feed followed by a
CR-free body — fails with the reader's end-of-input error, and a carriage
return followed by any byte other than line-feed is the line-endings framing
error; a bare-LF header line is not otherwise detected. -/
theorem readObject_line_terminators :
    (∀ s : List Char, '\r' ∉ s → readObject s = .error eofErr)
    ∧ (∀ (pre : List Char) (c : Char) (post : List Char), '\r' ∉ pre → c ≠ '\n' →
        readObject (pre ++ '\r' :: c :: post) = .error lineEndErr) := by
  constructor
  · intro s h
    unfold readObject
    rw [readLoop_no_cr_error s h]
  · intro pre c post hpre hc
    unfold readObject
    rw [readLoop_no_cr pre hpre, List.nil_append, readLoop.eq_def]
    simp [hc]

/-- Witness for C8 amended: the spec's own example, a header block using bare
line-feeds with a CR-free body, fails to decode; and a carriage return
followed by `x` raises the line-endings framing error. -/
theorem readObject_line_terminators_witness :
    ('\r' ∉ ("Content-Length: 5\n\nhello".toList))
    ∧ readObject ("Content-Length: 5\n\nhello".toList) = .error eofErr
    ∧ readObject ("Content-Length: 5".toList ++ '\r' :: 'x' :: "\nrest".toList)
        = .error lineEndErr :=
  ⟨by decide, readObject_line_terminators.1 _ (by decide),
    readObject_line_terminators.2 _ 'x' _ (by decide) (by decide)⟩

/-! ### Claim C4 (code bug) -/

theorem getProcIndex_client (idxs : List Nat) :
    getProcIndex (idxs.map Conn.backendConn) Conn.client = -1 := by
  suffices h : ∀ i, getProcIndexAux (idxs.map Conn.backendConn) Conn.client i = -1 from h 0
  induction idxs with
  | nil => intro i; rfl
  | cons j rest ih =>
    intro i
    simp [getProcIndexAux, ih]

/-- Claim C4, evaluated at the failing input: backend `a` publishes an
untagged diagnostic, then backend `b` publishes its own batch for the same
document.  On the path the staged wiring actually executes — the backend's
connection is handled by its `ProcessServer`, whose notification branch relays
to the client verbatim — each batch reaches the client untagged and unmerged,
so after `b`'s publish the client-visible batch no longer contains `a`'s
diagnostic.  The aggregation handler that would produce the claimed stamped
and merged batch sits behind a backend-connection check that the
`ProxyServer`, handler of the client connection only, never passes. -/
theorem publishDiagnostics_failing_input :
    processServerNotifyClient "textDocument/publishDiagnostics"
        [{ source := "", message := "oops" }]
      = ("textDocument/publishDiagnostics", [{ source := "", message := "oops" }])
    ∧ processServerNotifyClient "textDocument/publishDiagnostics"
        [{ source := "b", message := "warn" }]
      = ("textDocument/publishDiagnostics", [{ source := "b", message := "warn" }])
    ∧ (handleTextDocumentPublishDiagnostics
        (handleTextDocumentPublishDiagnostics [] "a" [{ source := "", message := "oops" }]).1
        "b" [{ source := "b", message := "warn" }]).2
      = [{ source := "a", message := "oops" }, { source := "b", message := "warn" }]
    ∧ ([{ source := "b", message := "warn" }] : List Diagnostic)
      ≠ [{ source := "a", message := "oops" }, { source := "b", message := "warn" }]
    ∧ getProcIndex [Conn.backendConn 0, Conn.backendConn 1] Conn.client = -1 :=
  ⟨rfl, rfl, rfl, by decide, rfl⟩

/-! ### Claim C9 (code bug) -/

/-- Claim C9, evaluated at the failing input: the client's initialize request
carries the options mapping with entries for `gopls` and `pylsp` and is fanned
out to those two backends.  Both backends receive the full raw mapping — the
fan-out forwards `req.Params` unchanged through `ProcessServer.Call` — whereas
the claim requires backend `gopls`'s forwarded request to carry only its own
entry, which is what the selection code of `ProcessServer.handle` would
compute; that code, however, runs only for backend-originated requests and
sends its output to the client connection. -/
theorem initOptions_failing_input :
    handleProcsRequests "initialize"
        (some (.obj [("gopls", .boolean true), ("pylsp", .num 1)]))
        [{ name := "gopls" }, { name := "pylsp" }]
      = [("initialize", some (.obj [("gopls", .boolean true), ("pylsp", .num 1)])),
         ("initialize", some (.obj [("gopls", .boolean true), ("pylsp", .num 1)]))]
    ∧ processInitOptions "gopls"
        (some (.obj [("gopls", .boolean true), ("pylsp", .num 1)]))
      = .ok (some (.boolean true))
    ∧ (some (Json.obj [("gopls", .boolean true), ("pylsp", .num 1)]) : Option Json)
      ≠ some (.boolean true) :=
  ⟨rfl, rfl, by simp⟩
